import Mathlib

/-!
Verification development for the trio I/O-wrapper sources:
the generated epoll wrapper module, the public-API generator
`gen_exports.py`, and the `trio_test` decorator.  Python code is
shallowly embedded: exceptions become an error type carried in
`Except`, attribute lookup on the global run context becomes an
`Option`-valued field, and the build tool's AST manipulation is
embedded over a model of the Python AST.
-/

namespace TrioSpec

/-- Python exceptions that the embedded code can raise. -/
inductive PyErr where
  | attributeError
  | runtimeError (msg : String)
  | valueError (msg : String)
  | assertionError
  | systemExit (code : Nat)
deriving DecidableEq, Repr

/-- The runner's io_manager, as seen by the generated wrappers: each
forwarded operation takes a descriptor and either returns or raises.
The side effects of the real operations are abstracted away; only the
raised-exception behaviour matters for the wrappers. -/
structure IOManager where
  wait_readable : Nat → Except PyErr Unit
  wait_writable : Nat → Except PyErr Unit
  notify_closing : Nat → Except PyErr Unit

/-- The runner object stored on the global run context while a run is
active; `io_manager` is always present on a live runner. -/
structure Runner where
  io_manager : IOManager

/-- GLOBAL_RUN_CONTEXT: a threading.local whose `runner` attribute is
present exactly while a run is active.  An absent attribute read
raises AttributeError, hence the `Option`. -/
structure RunContext where
  runner : Option Runner

/-- Embeds the `try: ... except AttributeError: raise RuntimeError(...)`
block shared by every generated wrapper (gen_exports.py TEMPLATE). -/
def catchAttributeError (x : Except PyErr α) : Except PyErr α :=
  match x with
  | .error .attributeError => .error (.runtimeError "must be called from async context")
  | other => other

/-- Reading `GLOBAL_RUN_CONTEXT.runner.io_manager`: AttributeError when
no runner is installed. -/
def lookupIoManager (ctx : RunContext) : Except PyErr IOManager :=
  match ctx.runner with
  | none => .error .attributeError
  | some r => .ok r.io_manager

/-- Generated `async def wait_readable(fd)` from _generated_io_epoll.py:
returns `await GLOBAL_RUN_CONTEXT.runner.io_manager.wait_readable(fd)`
inside the AttributeError-catching block. -/
def wait_readable (ctx : RunContext) (fd : Nat) : Except PyErr Unit :=
  catchAttributeError <|
    match lookupIoManager ctx with
    | .error e => .error e
    | .ok io => io.wait_readable fd

/-- Generated `async def wait_writable(fd)` from _generated_io_epoll.py. -/
def wait_writable (ctx : RunContext) (fd : Nat) : Except PyErr Unit :=
  catchAttributeError <|
    match lookupIoManager ctx with
    | .error e => .error e
    | .ok io => io.wait_writable fd

/-- Generated `def notify_closing(fd)` from _generated_io_epoll.py: a
plain (non-async) function, same catching block, no await. -/
def notify_closing (ctx : RunContext) (fd : Nat) : Except PyErr Unit :=
  catchAttributeError <|
    match lookupIoManager ctx with
    | .error e => .error e
    | .ok io => io.notify_closing fd

/-- Static shape of a generated wrapper definition: whether it is
declared `async def` and whether its body awaits the forwarded call. -/
structure WrapperSig where
  name : String
  isAsync : Bool
  awaitsForward : Bool
deriving DecidableEq, Repr

/-- wait_readable in _generated_io_epoll.py is `async def` and awaits. -/
def wait_readable_sig : WrapperSig := ⟨"wait_readable", true, true⟩

/-- wait_writable in _generated_io_epoll.py is `async def` and awaits. -/
def wait_writable_sig : WrapperSig := ⟨"wait_writable", true, true⟩

/-- notify_closing in _generated_io_epoll.py is a plain `def`, no await. -/
def notify_closing_sig : WrapperSig := ⟨"notify_closing", false, false⟩

/-- An io_manager all of whose operations raise AttributeError, used to
exercise the wrappers on inner AttributeErrors. -/
def attrErrIoManager : IOManager :=
  ⟨fun _ => .error .attributeError, fun _ => .error .attributeError,
   fun _ => .error .attributeError⟩

/-- An io_manager all of whose operations return normally. -/
def okIoManager : IOManager :=
  ⟨fun _ => .ok (), fun _ => .ok (), fun _ => .ok ()⟩

/-- A Python formal parameter (ast.arg); annotations are rendered only
by astor, which is abstracted, so just the name is kept. -/
structure PyArg where
  arg : String
deriving DecidableEq, Repr

/-- Python ast.arguments as used by gen_exports.py: positional args,
optional *vararg, keyword-only args, optional **kwarg. -/
structure PyArguments where
  args : List PyArg
  vararg : Option PyArg
  kwonlyargs : List PyArg
  kwarg : Option PyArg
deriving DecidableEq, Repr

/-- A decorator expression: either a bare ast.Name or anything else
(attribute accesses, calls, ...), which is_public ignores. -/
inductive PyDecorator where
  | name (id : String)
  | otherExpr
deriving DecidableEq, Repr

/-- Python AST statement nodes, holding exactly what gen_exports.py
inspects.  `functionDef` covers ast.FunctionDef and ast.AsyncFunctionDef
(`isAsync` distinguishes them); its body keeps nested statements so that
ast.walk can recurse, plus the docstring that the generator preserves.
`assertStmt` keeps an abstract tag for its test expression (rendered
only through the abstracted astor.to_source). -/
inductive PyNode where
  | functionDef (name : String) (isAsync : Bool) (args : PyArguments)
      (decorator_list : List PyDecorator) (docstring : Option String)
      (body : List PyNode)
  | classDef (name : String) (body : List PyNode)
  | assertStmt (tag : String)
  | otherStmt

mutual

/-- All descendants of a node including itself (ast.walk from one node;
ast.walk's yield order is documented as unspecified, a preorder is
used here). -/
def walkNode : PyNode → List PyNode
  | .functionDef name isAsync args decs doc body =>
      .functionDef name isAsync args decs doc body :: walkList body
  | .classDef name body => .classDef name body :: walkList body
  | .assertStmt tag => [.assertStmt tag]
  | .otherStmt => [.otherStmt]

/-- ast.walk over the statements of a module (the Module node itself is
never a function, so dropping it loses no public method). -/
def walkList : List PyNode → List PyNode
  | [] => []
  | n :: rest => walkNode n ++ walkList rest

end

/-- is_function from gen_exports.py: FunctionDef or AsyncFunctionDef. -/
def is_function : PyNode → Bool
  | .functionDef _ _ _ _ _ _ => true
  | _ => false

/-- is_public from gen_exports.py: a function node one of whose
decorators is the bare name `_public` (the early `if not is_function:
return False` is the catch-all arm). -/
def is_public : PyNode → Bool
  | .functionDef _ _ _ decs _ _ =>
      decs.any fun d =>
        match d with
        | .name id => id = "_public"
        | .otherExpr => false
  | _ => false

/-- The data of a method that the generator goes on to manipulate
(body statements beyond the docstring are deleted by the generator,
so only the docstring is retained). -/
structure FuncDef where
  name : String
  isAsync : Bool
  args : PyArguments
  decorator_list : List PyDecorator
  docstring : Option String
deriving DecidableEq, Repr

/-- View of a function node as the generator's working record. -/
def toFuncDef : PyNode → Option FuncDef
  | .functionDef name isAsync args decs doc _ => some ⟨name, isAsync, args, decs, doc⟩
  | _ => none

/-- get_public_methods from gen_exports.py: walk the tree, keep the
nodes satisfying is_public. -/
def get_public_methods (tree : List PyNode) : List FuncDef :=
  (walkList tree).filterMap fun n => if is_public n then toFuncDef n else none

/-- Python str.join with a separator, e.g. `", ".join(call_args)`. -/
def pyJoin (sep : String) : List String → String
  | [] => ""
  | [s] => s
  | s :: rest => s ++ sep ++ pyJoin sep rest

/-- Python s.split(a single newline) over characters; keeps empty
pieces, so a trailing newline yields a trailing empty line. -/
def splitLinesChars : List Char → List (List Char)
  | [] => [[]]
  | c :: rest =>
      if c = '\n' then [] :: splitLinesChars rest
      else
        match splitLinesChars rest with
        | l :: ls => (c :: l) :: ls
        | [] => [[c]]

/-- Python str.strip() default whitespace characters. -/
def isPySpace (c : Char) : Bool :=
  c = ' ' ∨ c = '\t' ∨ c = '\n' ∨ c = '\r' ∨ c = '\x0b' ∨ c = '\x0c'

/-- Rejoin lines with newlines (inverse of splitLinesChars). -/
def joinLinesChars : List (List Char) → List Char
  | [] => []
  | [l] => l
  | l :: ls => l ++ '\n' :: joinLinesChars ls

/-- Fuel-driven body of Python str.replace: replace each leftmost
occurrence of `old`, never rescanning the replacement. -/
def pyReplaceAux (old new : List Char) : Nat → List Char → List Char
  | _, [] => []
  | 0, s => s
  | fuel + 1, c :: rest =>
      if old ≠ [] ∧ old.isPrefixOf (c :: rest) then
        new ++ pyReplaceAux old new fuel ((c :: rest).drop old.length)
      else c :: pyReplaceAux old new fuel rest

/-- Python s.replace(old, new) for nonempty old (the generator only
replaces the nonempty pattern of a ContextManager annotation). -/
def pyReplace (s old new : String) : String :=
  ⟨pyReplaceAux old.data new.data s.data.length s.data⟩

/-- create_passthrough_args from gen_exports.py: positional names, then
*vararg, then kw=kw for keyword-only args, then **kwarg, comma-joined
and parenthesised. -/
def create_passthrough_args (funcdef : FuncDef) : String :=
  let call_args : List String :=
    (funcdef.args.args.map (fun a => a.arg))
    ++ (match funcdef.args.vararg with
        | some v => ["*" ++ v.arg]
        | none => [])
    ++ (funcdef.args.kwonlyargs.map (fun a => a.arg ++ "=" ++ a.arg))
    ++ (match funcdef.args.kwarg with
        | some k => ["**" ++ k.arg]
        | none => [])
  "(" ++ pyJoin ", " call_args ++ ")"

/-- The per-method mutation in gen_public_wrappers_source: assert the
first positional parameter is `self` and delete it (none models the
AssertionError / IndexError on violation), and clear the decorator
list. -/
def mutateMethod (m : FuncDef) : Option FuncDef :=
  match m.args.args with
  | [] => none
  | a :: rest =>
      if a.arg = "self" then
        some { m with args := { m.args with args := rest }, decorator_list := [] }
      else none

/-- The contextmanager test in gen_public_wrappers_source: some bare
Name decorator is `contextmanager` or `contextlib.contextmanager`. -/
def contextmanagerDecorated (m : FuncDef) : Bool :=
  m.decorator_list.any fun d =>
    match d with
    | .name id => id = "contextmanager" ∨ id = "contextlib.contextmanager"
    | .otherExpr => false

/-- TEMPLATE from gen_exports.py with its three format holes filled:
the await string, the lookup path, and the forwarded call. -/
def TEMPLATE_formatted (awaitStr lookup_path call : String) : String :=
  "locals()[LOCALS_KEY_KI_PROTECTION_ENABLED] = True\ntry:\n    return"
    ++ awaitStr ++ "GLOBAL_RUN_CONTEXT." ++ lookup_path ++ "." ++ call
    ++ "\nexcept AttributeError:\n    raise RuntimeError(\"must be called from async context\")\n"

/-- textwrap.indent: prefix every line that has any non-whitespace. -/
def pyIndent (s pre : String) : String :=
  ⟨joinLinesChars ((splitLinesChars s.data).map fun line =>
      if line.all isPySpace then line else pre.data ++ line)⟩

/-- One iteration of the method loop in gen_public_wrappers_source:
remove self, remember whether a contextmanager decorator was present,
drop decorators, build pass-through args, render the mutated definition
through astor.to_source (abstracted as `to_source`), patch the
ContextManager return annotation, instantiate TEMPLATE, and glue the
indented body under the rendered definition. -/
def genSnippet (to_source : FuncDef → String) (lookup_path : String)
    (method : FuncDef) : Option String :=
  match mutateMethod method with
  | none => none
  | some m =>
      let ctxmgr := contextmanagerDecorated method
      let new_args := create_passthrough_args m
      let func0 := to_source m
      let func := if ctxmgr then pyReplace func0 "->Iterator[" "->ContextManager[" else func0
      let template := TEMPLATE_formatted
        (if method.isAsync then " await " else " ")
        lookup_path (method.name ++ new_args)
      some (func ++ pyIndent template "    ")

/-- The method loop of gen_public_wrappers_source over a list of public
methods, collecting one snippet per method. -/
def genSnippets (to_source : FuncDef → String) (lookup_path : String) :
    List FuncDef → Option (List String)
  | [] => some []
  | m :: rest =>
      match genSnippet to_source lookup_path m, genSnippets to_source lookup_path rest with
      | some s, some ss => some (s :: ss)
      | _, _ => none

/-- HEADER from gen_exports.py. -/
def HEADER : String :=
  "# ***********************************************************\n# ******* WARNING: AUTOGENERATED! ALL EDITS WILL BE LOST ******\n# *************************************************************\nimport select\nimport socket\nimport sys\nfrom typing import (\n    Awaitable,\n    Callable,\n    ContextManager,\n    Iterator,\n    Optional,\n    Tuple,\n    TYPE_CHECKING,\n    Union,\n)\n\nfrom .._abc import Clock\nfrom .._typing import _HasFileno\nfrom .._core._entry_queue import TrioToken\nfrom .. import _core\nfrom ._run import GLOBAL_RUN_CONTEXT, _NO_SEND, _RunStatistics, Task\nfrom ._ki import LOCALS_KEY_KI_PROTECTION_ENABLED\nfrom ._instrumentation import Instrument\n\nif TYPE_CHECKING and sys.platform == \"win32\":\n    from ._io_windows import CompletionKeyEventInfo\n\n# fmt: off\n"

/-- FOOTER from gen_exports.py. -/
def FOOTER : String := "# fmt: on\n"

/-- gen_public_wrappers_source from gen_exports.py over an already
parsed module (the astor file parse and the two astor.to_source
renderings are abstracted as parameters): HEADER, the first top-level
assert if any, one snippet per public method, FOOTER, joined by blank
lines. -/
def gen_public_wrappers_source (to_source : FuncDef → String)
    (stmt_to_source : PyNode → String)
    (source : List PyNode) (lookup_path : String) : Option String :=
  let asserts := source.filter fun n =>
    match n with
    | .assertStmt _ => true
    | _ => false
  let assertPart := match asserts with
    | [] => ([] : List String)
    | a :: _ => [stmt_to_source a]
  match genSnippets to_source lookup_path (get_public_methods source) with
  | none => none
  | some snippets =>
      some (pyJoin "\n\n" ([HEADER] ++ assertPart ++ snippets ++ [FOOTER]))

/-- The direction of an I/O wait. -/
inductive Direction where
  | read
  | write
deriving DecidableEq, Repr

/-- Modelled from the spec: the Waiter record of the Waiter Registry
(§3 of the spec); the registry implementation is not among the source
files, only its wrappers and tests of the excerpt are.  `armed_at` is
dropped: no claim concerns it. -/
structure Waiter where
  descriptor : Nat
  direction : Direction
  task : Nat
deriving DecidableEq, Repr

/-- Modelled from the spec: registry failure modes (§4.1, §7). -/
inductive RegError where
  | duplicateWaiter
  | noWaiter
deriving DecidableEq, Repr

/-- Whether a waiter occupies the (descriptor, direction) key. -/
def waiterKeyMatches (w : Waiter) (d : Nat) (k : Direction) : Bool :=
  w.descriptor = d ∧ w.direction = k

/-- Modelled from the spec: `register(descriptor, direction, task)`
rejects a second waiter on an occupied (descriptor, direction) key with
DuplicateWaiter, otherwise records the new waiter (§4.1). -/
def registryRegister (reg : List Waiter) (d : Nat) (k : Direction) (t : Nat) :
    Except RegError (List Waiter) :=
  if reg.any (fun w => waiterKeyMatches w d k) then .error .duplicateWaiter
  else .ok (⟨d, k, t⟩ :: reg)

/-- Modelled from the spec: `remove(descriptor, direction)` (§4.1). -/
def registryRemove (reg : List Waiter) (d : Nat) (k : Direction) : List Waiter :=
  reg.filter fun w => ¬ waiterKeyMatches w d k

/-- Modelled from the spec: `resolve(descriptor, direction)` returns and
clears the waiter when present and is an idempotent no-op on a second
call for the same key (§4.1). -/
def registryResolve (reg : List Waiter) (d : Nat) (k : Direction) :
    Option Waiter × List Waiter :=
  match reg.find? (fun w => waiterKeyMatches w d k) with
  | none => (none, reg)
  | some w => (some w, registryRemove reg d k)

/-- Modelled from the spec: the registry mutations reachable through the
public operations — a wait primitive registering, the scheduler bridge
resolving a reported event, cancellation removing, and notify_closing
force-resolving both directions of a descriptor (§4.1, §4.4). -/
inductive RegOp where
  | opRegister (d : Nat) (k : Direction) (t : Nat)
  | opResolve (d : Nat) (k : Direction)
  | opRemove (d : Nat) (k : Direction)
  | opNotifyClosing (d : Nat)
deriving DecidableEq, Repr

/-- Modelled from the spec: effect of one registry operation; a rejected
register (DuplicateWaiter) leaves the registry unchanged. -/
def registryStep (reg : List Waiter) : RegOp → List Waiter
  | .opRegister d k t =>
      match registryRegister reg d k t with
      | .ok reg2 => reg2
      | .error _ => reg
  | .opResolve d k => (registryResolve reg d k).2
  | .opRemove d k => registryRemove reg d k
  | .opNotifyClosing d =>
      registryRemove (registryRemove reg d .read) d .write

/-- Registry state after a sequence of operations from the empty
registry (registry creation at run start). -/
def registryRun (ops : List RegOp) : List Waiter :=
  ops.foldl registryStep []

/-- At most one waiter per (descriptor, direction) key: no later entry
shares the key of an earlier one. -/
def registryKeysNodup : List Waiter → Bool
  | [] => true
  | w :: rest =>
      (¬ rest.any (fun x => waiterKeyMatches x w.descriptor w.direction)) &&
        registryKeysNodup rest

/-- A value passed as a keyword argument to a trio_test-decorated test:
what the wrapper observes is only its isinstance relationship to the
Clock and Instrument ABCs. -/
structure PyVal where
  isClock : Bool
  isInstrument : Bool
deriving DecidableEq, Repr

/-- The run(...) invocation assembled by the trio_test wrapper:
run(partial(fn, **kwargs), clock=clock, instruments=instruments). -/
structure RunCall where
  kwargs : List (String × PyVal)
  clock : Option PyVal
  instruments : List PyVal
deriving DecidableEq, Repr

/-- The instruments list built by the trio_test wrapper. -/
def instrumentsOf (kwargs : List (String × PyVal)) : List PyVal :=
  (kwargs.map Prod.snd).filter fun v => v.isInstrument

/-- The wrapper produced by trio_test (_trio_test.py): collect the
kwarg values that are Clock instances, pick the clock (none / the
single one / ValueError), collect Instrument instances, and call run.
The run call is returned as data; an error return means run was never
invoked. -/
def trio_test_wrapper (kwargs : List (String × PyVal)) : Except PyErr RunCall :=
  let clocks := (kwargs.map Prod.snd).filter fun v => v.isClock
  match clocks with
  | [] => .ok ⟨kwargs, none, instrumentsOf kwargs⟩
  | [c] => .ok ⟨kwargs, some c, instrumentsOf kwargs⟩
  | _ => .error (.valueError "too many clocks spoil the broth!")

/-- PREFIX from gen_exports.py. -/
def PREFIX_STR : String := "_generated"

/-- posixpath.split: cut after the last slash, then strip trailing
slashes from the head unless it is all slashes. -/
def os_path_split (p : String) : String × String :=
  let cs := p.data
  let i := ((cs.enum.filterMap fun jc =>
      if jc.2 = '/' then some (jc.1 + 1) else none).foldl max 0)
  let head := cs.take i
  let tail := cs.drop i
  let head2 :=
    if head ≠ [] ∧ ¬ head.all (fun c => c = '/') then
      (head.reverse.dropWhile (fun c => c = '/')).reverse
    else head
  (⟨head2⟩, ⟨tail⟩)

/-- posixpath.join for the two-argument call in process: b absolute
wins; otherwise append with a slash unless a is empty or slash-final. -/
def os_path_join (a b : String) : String :=
  if b.data.head? = some '/' then b
  else if a = "" ∨ a.data.getLast? = some '/' then a ++ b
  else a ++ "/" ++ b

/-- Python dict assignment d[k] = v on an insertion-ordered dict. -/
def dictUpdate (d : List (String × String)) (k v : String) :
    List (String × String) :=
  if d.any (fun kv => kv.1 = k) then
    d.map fun kv => if kv.1 = k then (k, v) else kv
  else d ++ [(k, v)]

/-- The astor renderings and the file parse that gen_exports.py gets
from its environment, abstracted. -/
structure GenEnv where
  parse_file : String → List PyNode
  to_source : FuncDef → String
  stmt_to_source : PyNode → String

/-- The new_files dict built by the first loop of process: for each
(source_path, lookup_path), generate the wrapper source and store it
under dirname/_generated+basename.  none models the generator's
AssertionError escaping process. -/
def processNewFiles (env : GenEnv)
    (sources_and_lookups : List (String × String)) :
    Option (List (String × String)) :=
  sources_and_lookups.foldlM
    (fun d sl =>
      match gen_public_wrappers_source env.to_source env.stmt_to_source
          (env.parse_file sl.1) sl.2 with
      | none => none
      | some new_source =>
          let dirname := (os_path_split sl.1).1
          let basename := (os_path_split sl.1).2
          let new_path := os_path_join dirname (PREFIX_STR ++ basename)
          some (dictUpdate d new_path new_source))
    []

/-- The filesystem as process observes it: path to contents when the
path exists. -/
def FileSys : Type := String → Option String

/-- matches_disk_files from gen_exports.py: every generated path exists
and its on-disk contents equal the generated source. -/
def matches_disk_files (fs : FileSys) (new_files : List (String × String)) : Bool :=
  new_files.all fun pv =>
    match fs pv.1 with
    | none => false
    | some old_source => old_source = pv.2

/-- process from gen_exports.py: build new_files; with do_test, exit 1
on a mismatch with the disk and write nothing, else return normally.
The ok payload lists the file writes performed (empty in test mode;
the whole new_files dict in regeneration mode). -/
def process (env : GenEnv) (fs : FileSys)
    (sources_and_lookups : List (String × String)) (do_test : Bool) :
    Except PyErr (List (String × String)) :=
  match processNewFiles env sources_and_lookups with
  | none => .error .assertionError
  | some new_files =>
      if do_test then
        if ¬ matches_disk_files fs new_files then .error (.systemExit 1)
        else .ok []
      else .ok new_files

/-- C1: outside an active runtime context (no runner on the global run
context) wait_readable and wait_writable fail with exactly
RuntimeError("must be called from async context") — equality pins down
that no other error can occur there. -/
theorem C1_wait_primitives_runtime_error (ctx : RunContext) (fd : Nat)
    (h : ctx.runner = none) :
    wait_readable ctx fd = .error (.runtimeError "must be called from async context") ∧
    wait_writable ctx fd = .error (.runtimeError "must be called from async context") := by
  constructor <;>
    simp [wait_readable, wait_writable, lookupIoManager, h, catchAttributeError]

/-- Witness for C1 at the concrete empty run context and descriptor 3. -/
theorem C1_wait_primitives_runtime_error_witness :
    wait_readable ⟨none⟩ 3 = .error (.runtimeError "must be called from async context") ∧
    wait_writable ⟨none⟩ 3 = .error (.runtimeError "must be called from async context") :=
  C1_wait_primitives_runtime_error ⟨none⟩ 3 rfl

/-- C2: notify_closing is a plain synchronous def (not async, no await),
and it is callable from any context: with an active runner it yields the
forwarded result, and in every context it never escapes with an
AttributeError (outside a run it raises the documented RuntimeError). -/
theorem C2_notify_closing_synchronous :
    notify_closing_sig.isAsync = false ∧
    notify_closing_sig.awaitsForward = false ∧
    (∀ (r : Runner) (fd : Nat), r.io_manager.notify_closing fd = .ok () →
      notify_closing ⟨some r⟩ fd = .ok ()) ∧
    (∀ (ctx : RunContext) (fd : Nat),
      notify_closing ctx fd ≠ .error .attributeError) := by
  refine ⟨rfl, rfl, ?_, ?_⟩
  · intro r fd h
    simp [notify_closing, lookupIoManager, h, catchAttributeError]
  · intro ctx fd
    cases hc : ctx.runner with
    | none => simp [notify_closing, lookupIoManager, hc, catchAttributeError]
    | some r =>
      simp only [notify_closing, lookupIoManager, hc, catchAttributeError]
      cases hio : r.io_manager.notify_closing fd with
      | ok v => simp
      | error e => cases e <;> simp

/-- Witness for C2 at a concrete runner whose notify_closing succeeds. -/
theorem C2_notify_closing_synchronous_witness :
    notify_closing ⟨some ⟨okIoManager⟩⟩ 5 = .ok () :=
  C2_notify_closing_synchronous.2.2.1 ⟨okIoManager⟩ 5 rfl

/-- C8: in each generated wrapper the try block encloses the forwarded
call itself, so an AttributeError raised inside the forwarded operation
is also converted to RuntimeError("must be called from async context"),
and no wrapper ever lets an AttributeError propagate. -/
theorem C8_attribute_error_from_forwarded_call :
    (∀ (ctx : RunContext) (fd : Nat),
      wait_readable ctx fd ≠ .error .attributeError ∧
      wait_writable ctx fd ≠ .error .attributeError ∧
      notify_closing ctx fd ≠ .error .attributeError) ∧
    (∀ (io : IOManager) (fd : Nat),
      (io.wait_readable fd = .error .attributeError →
        wait_readable ⟨some ⟨io⟩⟩ fd =
          .error (.runtimeError "must be called from async context")) ∧
      (io.wait_writable fd = .error .attributeError →
        wait_writable ⟨some ⟨io⟩⟩ fd =
          .error (.runtimeError "must be called from async context")) ∧
      (io.notify_closing fd = .error .attributeError →
        notify_closing ⟨some ⟨io⟩⟩ fd =
          .error (.runtimeError "must be called from async context"))) := by
  constructor
  · intro ctx fd
    refine ⟨?_, ?_, ?_⟩ <;>
    · cases hc : ctx.runner with
      | none =>
        simp [wait_readable, wait_writable, notify_closing,
          lookupIoManager, hc, catchAttributeError]
      | some r =>
        simp only [wait_readable, wait_writable, notify_closing,
          lookupIoManager, hc, catchAttributeError]
        first
        | cases hio : r.io_manager.wait_readable fd with
          | ok v => simp
          | error e => cases e <;> simp
        | cases hio : r.io_manager.wait_writable fd with
          | ok v => simp
          | error e => cases e <;> simp
        | cases hio : r.io_manager.notify_closing fd with
          | ok v => simp
          | error e => cases e <;> simp
  · intro io fd
    refine ⟨?_, ?_, ?_⟩ <;> intro h <;>
      simp [wait_readable, wait_writable, notify_closing,
        lookupIoManager, h, catchAttributeError]

/-- Witness for C8: with an io_manager whose operations raise
AttributeError, each wrapper reports the RuntimeError instead. -/
theorem C8_attribute_error_from_forwarded_call_witness :
    wait_readable ⟨some ⟨attrErrIoManager⟩⟩ 7 =
      .error (.runtimeError "must be called from async context") :=
  (C8_attribute_error_from_forwarded_call.2 attrErrIoManager 7).1 rfl


/-- C7: a trio_test-decorated test called with kwargs exactly one value
of which is a Clock runs with that value as the clock, and with no
Clock-valued kwarg runs with clock=None; in both cases run receives the
original kwargs and the Instrument-valued kwargs as instruments. -/
theorem C7_trio_test_clock_selection (kwargs : List (String × PyVal)) :
    (∀ c : PyVal, (kwargs.map Prod.snd).filter (fun v => v.isClock) = [c] →
      trio_test_wrapper kwargs = .ok ⟨kwargs, some c, instrumentsOf kwargs⟩) ∧
    ((kwargs.map Prod.snd).filter (fun v => v.isClock) = [] →
      trio_test_wrapper kwargs = .ok ⟨kwargs, none, instrumentsOf kwargs⟩) := by
  constructor
  · intro c h
    simp [trio_test_wrapper, h]
  · intro h
    simp [trio_test_wrapper, h]

/-- Witness for C7: one Clock kwarg selects it; none selects None. -/
theorem C7_trio_test_clock_selection_witness :
    trio_test_wrapper [("clock", ⟨true, false⟩), ("x", ⟨false, false⟩)] =
      .ok ⟨[("clock", ⟨true, false⟩), ("x", ⟨false, false⟩)], some ⟨true, false⟩,
        instrumentsOf [("clock", ⟨true, false⟩), ("x", ⟨false, false⟩)]⟩ ∧
    trio_test_wrapper [("x", ⟨false, false⟩)] =
      .ok ⟨[("x", ⟨false, false⟩)], none, instrumentsOf [("x", ⟨false, false⟩)]⟩ :=
  ⟨(C7_trio_test_clock_selection _).1 ⟨true, false⟩ (by decide),
   (C7_trio_test_clock_selection _).2 (by decide)⟩

/-- C9: with two or more Clock-valued kwargs the trio_test wrapper
raises ValueError("too many clocks spoil the broth!") and run is never
invoked (no RunCall is produced). -/
theorem C9_trio_test_too_many_clocks (kwargs : List (String × PyVal))
    (h : 2 ≤ ((kwargs.map Prod.snd).filter (fun v => v.isClock)).length) :
    trio_test_wrapper kwargs = .error (.valueError "too many clocks spoil the broth!") ∧
    ∀ rc : RunCall, trio_test_wrapper kwargs ≠ .ok rc := by
  have hmain : trio_test_wrapper kwargs =
      .error (.valueError "too many clocks spoil the broth!") := by
    unfold trio_test_wrapper
    cases hc : (kwargs.map Prod.snd).filter (fun v => v.isClock) with
    | nil => rw [hc] at h; simp at h
    | cons c rest =>
      cases rest with
      | nil => rw [hc] at h; simp at h
      | cons c2 rest2 => simp
  exact ⟨hmain, fun rc hok => by rw [hmain] at hok; exact Except.noConfusion hok⟩

/-- Witness for C9 at two Clock-valued kwargs. -/
theorem C9_trio_test_too_many_clocks_witness :
    trio_test_wrapper [("a", ⟨true, false⟩), ("b", ⟨true, true⟩)] =
      .error (.valueError "too many clocks spoil the broth!") :=
  (C9_trio_test_too_many_clocks [("a", ⟨true, false⟩), ("b", ⟨true, true⟩)]
    (by decide)).1

theorem matches_disk_files_false_iff (fs : FileSys)
    (new_files : List (String × String)) :
    matches_disk_files fs new_files = false ↔
      ∃ pv ∈ new_files, fs pv.1 ≠ some pv.2 := by
  unfold matches_disk_files
  rw [← Bool.not_eq_true, List.all_eq_true]
  constructor
  · intro h
    by_contra hno
    push_neg at hno
    apply h
    intro pv hmem
    have := hno pv hmem
    rw [this]
    simp
  · rintro ⟨pv, hmem, hne⟩ hall
    have := hall pv hmem
    cases hfs : fs pv.1 with
    | none => rw [hfs] at this; simp at this
    | some old =>
      rw [hfs] at this
      simp at this
      exact hne (by rw [hfs, this])

/-- C10: process(sources, do_test := true) performs no file writes, and
it exits with SystemExit(1) exactly when some generated output path is
missing from disk or its on-disk contents differ from the freshly
generated source; otherwise it returns normally (with the empty write
list). -/
theorem C10_process_test_mode (env : GenEnv) (fs : FileSys)
    (sources_and_lookups : List (String × String))
    (new_files : List (String × String))
    (hgen : processNewFiles env sources_and_lookups = some new_files) :
    (process env fs sources_and_lookups true = .error (.systemExit 1) ↔
      ∃ pv ∈ new_files, fs pv.1 ≠ some pv.2) ∧
    (¬ (∃ pv ∈ new_files, fs pv.1 ≠ some pv.2) →
      process env fs sources_and_lookups true = .ok []) ∧
    (∀ writes, process env fs sources_and_lookups true = .ok writes →
      writes = []) := by
  have hproc : process env fs sources_and_lookups true =
      (if ¬ matches_disk_files fs new_files then .error (.systemExit 1)
       else .ok []) := by
    unfold process
    rw [hgen]
    simp
  rw [← matches_disk_files_false_iff]
  refine ⟨?_, ?_, ?_⟩
  · rw [hproc]
    cases hm : matches_disk_files fs new_files <;> simp [hm]
  · intro hno
    rw [hproc]
    cases hm : matches_disk_files fs new_files with
    | false => exact absurd hm hno
    | true => simp
  · intro writes hw
    rw [hproc] at hw
    cases hm : matches_disk_files fs new_files <;> rw [hm] at hw <;> simp_all

/-- A degenerate generator environment for concrete evaluation. -/
def trivialGenEnv : GenEnv :=
  ⟨fun _ => [], fun _ => "", fun _ => ""⟩

/-- Witness for C10: one scanned source, empty disk — the generated
path is absent, so test mode exits with status 1. -/
theorem C10_process_test_mode_witness :
    process trivialGenEnv (fun _ => none) [("b", "runner")] true =
      .error (.systemExit 1) :=
  (C10_process_test_mode trivialGenEnv (fun _ => none) [("b", "runner")]
    [("_generatedb", pyJoin "\n\n" [HEADER, FOOTER])]
    (by rfl)).1.mpr
    ⟨("_generatedb", pyJoin "\n\n" [HEADER, FOOTER]),
      List.Mem.head _, fun h => Option.noConfusion h⟩

theorem any_of_any_filter {α : Type} (l : List α) (p q : α → Bool)
    (h : (l.filter p).any q = true) : l.any q = true := by
  rcases List.any_eq_true.mp h with ⟨a, ha, hq⟩
  exact List.any_eq_true.mpr ⟨a, List.mem_of_mem_filter ha, hq⟩

theorem registryKeysNodup_filter (reg : List Waiter) (p : Waiter → Bool)
    (h : registryKeysNodup reg = true) :
    registryKeysNodup (reg.filter p) = true := by
  induction reg with
  | nil => simp [List.filter, registryKeysNodup]
  | cons w rest ih =>
    rw [registryKeysNodup, Bool.and_eq_true] at h
    rw [List.filter]
    cases hp : p w with
    | false => exact ih h.2
    | true =>
      rw [registryKeysNodup, Bool.and_eq_true]
      refine ⟨?_, ih h.2⟩
      have h1 := h.1
      cases hany : (rest.filter p).any
          (fun x => waiterKeyMatches x w.descriptor w.direction) with
      | false => simp
      | true =>
        have := any_of_any_filter rest p _ hany
        rw [this] at h1
        simp at h1

theorem registryStep_preserves_nodup (reg : List Waiter) (op : RegOp)
    (h : registryKeysNodup reg = true) :
    registryKeysNodup (registryStep reg op) = true := by
  cases op with
  | opRegister d k t =>
    rw [registryStep]
    unfold registryRegister
    cases hany : reg.any (fun w => waiterKeyMatches w d k) with
    | true => simpa using h
    | false =>
      simp only [Bool.false_eq_true, if_false]
      rw [registryKeysNodup, Bool.and_eq_true]
      exact ⟨by simpa [waiterKeyMatches] using hany, h⟩
  | opResolve d k =>
    rw [registryStep]
    unfold registryResolve
    cases hf : reg.find? (fun w => waiterKeyMatches w d k) with
    | none => simpa using h
    | some w => exact registryKeysNodup_filter reg _ h
  | opRemove d k => exact registryKeysNodup_filter reg _ h
  | opNotifyClosing d =>
    exact registryKeysNodup_filter _ _ (registryKeysNodup_filter reg _ h)

theorem registryRun_nodup_aux (ops : List RegOp) (reg : List Waiter)
    (h : registryKeysNodup reg = true) :
    registryKeysNodup (ops.foldl registryStep reg) = true := by
  induction ops generalizing reg with
  | nil => simpa using h
  | cons op rest ih =>
    rw [List.foldl_cons]
    exact ih _ (registryStep_preserves_nodup reg op h)

/-- C6: (modelled from the spec, the Waiter Registry not being among
the source files) starting from the empty registry, every sequence of
registry operations leaves at most one live Waiter per
(descriptor, direction) key, and a register on an occupied key fails
with DuplicateWaiter instead of creating a second Waiter. -/
theorem C6_registry_one_waiter_per_key :
    (∀ ops : List RegOp, registryKeysNodup (registryRun ops) = true) ∧
    (∀ (reg : List Waiter) (d : Nat) (k : Direction) (t : Nat) (w : Waiter),
      w ∈ reg → waiterKeyMatches w d k = true →
      registryRegister reg d k t = .error .duplicateWaiter) := by
  constructor
  · intro ops
    exact registryRun_nodup_aux ops [] rfl
  · intro reg d k t w hmem hkey
    unfold registryRegister
    have : reg.any (fun w => waiterKeyMatches w d k) = true :=
      List.any_eq_true.mpr ⟨w, hmem, hkey⟩
    rw [this]
    simp

/-- Witness for C6: a second concurrent wait on descriptor 1, read
direction, is rejected with DuplicateWaiter, and a run that attempts
the duplicate registration still satisfies the key invariant. -/
theorem C6_registry_one_waiter_per_key_witness :
    registryKeysNodup (registryRun
      [.opRegister 1 .read 10, .opRegister 1 .read 11]) = true ∧
    registryRegister [⟨1, .read, 10⟩] 1 .read 11 = .error .duplicateWaiter :=
  ⟨C6_registry_one_waiter_per_key.1 [.opRegister 1 .read 10, .opRegister 1 .read 11],
   C6_registry_one_waiter_per_key.2 [⟨1, .read, 10⟩] 1 .read 11 ⟨1, .read, 10⟩
     (by decide) (by decide)⟩

theorem genSnippets_mem (ts : FuncDef → String) (lookup : String)
    (ms : List FuncDef) (snippets : List String) (m : FuncDef)
    (hgen : genSnippets ts lookup ms = some snippets) (hm : m ∈ ms) :
    ∃ s ∈ snippets, genSnippet ts lookup m = some s := by
  induction ms generalizing snippets with
  | nil => cases hm
  | cons m0 rest ih =>
    rw [genSnippets] at hgen
    cases h0 : genSnippet ts lookup m0 with
    | none => rw [h0] at hgen; simp at hgen
    | some s0 =>
      rw [h0] at hgen
      cases hrest : genSnippets ts lookup rest with
      | none => rw [hrest] at hgen; simp at hgen
      | some ss =>
        rw [hrest] at hgen
        simp only [Option.some.injEq] at hgen
        cases hm with
        | head => exact ⟨s0, by rw [← hgen]; exact .head _, h0⟩
        | tail _ hmem =>
          obtain ⟨s, hs, hgs⟩ := ih ss hrest hmem
          exact ⟨s, by rw [← hgen]; exact .tail _ hs, hgs⟩

theorem genSnippets_length (ts : FuncDef → String) (lookup : String)
    (ms : List FuncDef) (snippets : List String)
    (hgen : genSnippets ts lookup ms = some snippets) :
    snippets.length = ms.length := by
  induction ms generalizing snippets with
  | nil => rw [genSnippets] at hgen; simp only [Option.some.injEq] at hgen; simp [← hgen]
  | cons m0 rest ih =>
    rw [genSnippets] at hgen
    cases h0 : genSnippet ts lookup m0 with
    | none => rw [h0] at hgen; simp at hgen
    | some s0 =>
      rw [h0] at hgen
      cases hrest : genSnippets ts lookup rest with
      | none => rw [hrest] at hgen; simp at hgen
      | some ss =>
        rw [hrest] at hgen
        simp only [Option.some.injEq] at hgen
        rw [← hgen]
        simp [ih ss hrest]

theorem gen_source_snippets (to_source : FuncDef → String)
    (stmt_to_source : PyNode → String) (tree : List PyNode)
    (lookup_path : String) (out : String)
    (hgen : gen_public_wrappers_source to_source stmt_to_source tree lookup_path
      = some out) :
    ∃ snippets,
      genSnippets to_source lookup_path (get_public_methods tree) = some snippets := by
  unfold gen_public_wrappers_source at hgen
  cases hs : genSnippets to_source lookup_path (get_public_methods tree) with
  | none => rw [hs] at hgen; simp at hgen
  | some snippets => exact ⟨snippets, rfl⟩

/-- C3: for every public method found in the scanned tree, the emitted
wrapper's body is the KI-protection line plus a try block returning
`GLOBAL_RUN_CONTEXT.<lookup_path>.<method>(<args>)`, preceded by
" await " exactly when the method is an async def and by a plain space
otherwise, with AttributeError translated to RuntimeError. -/
theorem C3_wrapper_forwards_to_run_context (to_source : FuncDef → String)
    (stmt_to_source : PyNode → String) (tree : List PyNode)
    (lookup_path : String) (out : String) (m : FuncDef)
    (hgen : gen_public_wrappers_source to_source stmt_to_source tree lookup_path
      = some out)
    (hm : m ∈ get_public_methods tree) :
    ∃ snippets m' funcPart,
      genSnippets to_source lookup_path (get_public_methods tree) = some snippets ∧
      mutateMethod m = some m' ∧
      (funcPart ++ pyIndent
        ("locals()[LOCALS_KEY_KI_PROTECTION_ENABLED] = True\ntry:\n    return"
          ++ (if m.isAsync then " await " else " ")
          ++ "GLOBAL_RUN_CONTEXT." ++ lookup_path ++ "."
          ++ (m.name ++ create_passthrough_args m')
          ++ "\nexcept AttributeError:\n    raise RuntimeError(\"must be called from async context\")\n")
        "    ") ∈ snippets := by
  obtain ⟨snippets, hs⟩ :=
    gen_source_snippets to_source stmt_to_source tree lookup_path out hgen
  obtain ⟨s, hsm, hgs⟩ := genSnippets_mem to_source lookup_path _ snippets m hs hm
  cases hmut : mutateMethod m with
  | none => rw [genSnippet, hmut] at hgs; simp at hgs
  | some m' =>
    refine ⟨snippets, m',
      (if contextmanagerDecorated m
        then pyReplace (to_source m') "->Iterator[" "->ContextManager["
        else to_source m'), hs, rfl, ?_⟩
    rw [genSnippet, hmut] at hgs
    simp only [Option.some.injEq] at hgs
    rw [← hgs] at hsm
    exact hsm

/-- Tree with one public async method, used for concrete evaluation. -/
def exampleTree : List PyNode :=
  [.classDef "EpollIOManager"
    [.functionDef "f" true ⟨[⟨"self"⟩], none, [], none⟩
      [.name "_public"] none []]]

/-- Example astor rendering: a constant definition header. -/
def exampleToSource : FuncDef → String := fun _ => "SRC"

/-- Example astor rendering for assert statements. -/
def exampleStmtToSource : PyNode → String := fun _ => ""

/-- The public method of exampleTree as the generator extracts it. -/
def exampleMethod : FuncDef :=
  ⟨"f", true, ⟨[⟨"self"⟩], none, [], none⟩, [.name "_public"], none⟩

/-- Witness for C3 at a one-method tree: the emitted wrapper body
forwards to GLOBAL_RUN_CONTEXT.runner.f() with an await. -/
theorem C3_wrapper_forwards_to_run_context_witness :
    ∃ snippets m' funcPart,
      genSnippets exampleToSource "runner" (get_public_methods exampleTree)
        = some snippets ∧
      mutateMethod exampleMethod = some m' ∧
      (funcPart ++ pyIndent
        ("locals()[LOCALS_KEY_KI_PROTECTION_ENABLED] = True\ntry:\n    return"
          ++ (if exampleMethod.isAsync then " await " else " ")
          ++ "GLOBAL_RUN_CONTEXT." ++ "runner" ++ "."
          ++ (exampleMethod.name ++ create_passthrough_args m')
          ++ "\nexcept AttributeError:\n    raise RuntimeError(\"must be called from async context\")\n")
        "    ") ∈ snippets :=
  C3_wrapper_forwards_to_run_context exampleToSource exampleStmtToSource
    exampleTree "runner"
    ((gen_public_wrappers_source exampleToSource exampleStmtToSource
      exampleTree "runner").getD "")
    exampleMethod rfl (by decide)

/-- C4: processing a public method removes exactly the leading self
parameter (everything else in the signature is kept), and the
pass-through call passes every remaining parameter: positional names
in order, *vararg, keyword-only as name=name, **kwarg. -/
theorem C4_passthrough_args (m : FuncDef) (a : PyArg) (rest : List PyArg)
    (hself : m.args.args = a :: rest) (hname : a.arg = "self") :
    ∃ m', mutateMethod m = some m' ∧
      m'.name = m.name ∧ m'.isAsync = m.isAsync ∧
      m'.docstring = m.docstring ∧
      m'.args.args = rest ∧ m'.args.vararg = m.args.vararg ∧
      m'.args.kwonlyargs = m.args.kwonlyargs ∧ m'.args.kwarg = m.args.kwarg ∧
      create_passthrough_args m' =
        "(" ++ pyJoin ", "
          ((rest.map fun p => p.arg)
            ++ (match m.args.vararg with
                | some v => ["*" ++ v.arg]
                | none => [])
            ++ (m.args.kwonlyargs.map fun p => p.arg ++ "=" ++ p.arg)
            ++ (match m.args.kwarg with
                | some k => ["**" ++ k.arg]
                | none => [])) ++ ")" := by
  refine ⟨{ m with args := { m.args with args := rest }, decorator_list := [] },
    ?_, rfl, rfl, rfl, rfl, rfl, rfl, rfl, rfl⟩
  unfold mutateMethod
  rw [hself]
  simp [hname]

/-- Method `def f(self, a, *, b)` for the C4 example. -/
def exampleMethodKw : FuncDef :=
  ⟨"f", false, ⟨[⟨"self"⟩, ⟨"a"⟩], none, [⟨"b"⟩], none⟩, [.name "_public"], none⟩

/-- Witness for C4 at `def f(self, a, *, b)`: self disappears and the
call arguments are `(a, b=b)`. -/
theorem C4_passthrough_args_witness :
    (∃ m', mutateMethod exampleMethodKw = some m' ∧
      m'.name = exampleMethodKw.name ∧ m'.isAsync = exampleMethodKw.isAsync ∧
      m'.docstring = exampleMethodKw.docstring ∧
      m'.args.args = [⟨"a"⟩] ∧ m'.args.vararg = exampleMethodKw.args.vararg ∧
      m'.args.kwonlyargs = exampleMethodKw.args.kwonlyargs ∧
      m'.args.kwarg = exampleMethodKw.args.kwarg ∧
      create_passthrough_args m' =
        "(" ++ pyJoin ", "
          (([⟨"a"⟩] : List PyArg).map (fun p => p.arg)
            ++ (match exampleMethodKw.args.vararg with
                | some v => ["*" ++ v.arg]
                | none => [])
            ++ (exampleMethodKw.args.kwonlyargs.map fun p => p.arg ++ "=" ++ p.arg)
            ++ (match exampleMethodKw.args.kwarg with
                | some k => ["**" ++ k.arg]
                | none => [])) ++ ")") ∧
    "(" ++ pyJoin ", " ["a", "b" ++ "=" ++ "b"] ++ ")" = "(a, b=b)" :=
  ⟨C4_passthrough_args exampleMethodKw ⟨"self"⟩ [⟨"a"⟩] rfl rfl, by decide⟩

theorem get_public_methods_length (l : List PyNode) :
    (l.filterMap (fun n => if is_public n then toFuncDef n else none)).length
      = (l.filter (fun n => is_public n)).length := by
  induction l with
  | nil => simp
  | cons n rest ih =>
    rw [List.filterMap_cons, List.filter]
    cases hp : is_public n with
    | false => simpa using ih
    | true =>
      have : ∃ fd, toFuncDef n = some fd := by
        cases n with
        | functionDef name isAsync args decs doc body => exact ⟨_, rfl⟩
        | classDef name body => simp [is_public] at hp
        | assertStmt tag => simp [is_public] at hp
        | otherStmt => simp [is_public] at hp
      obtain ⟨fd, hfd⟩ := this
      rw [hfd]
      simpa using ih

/-- C5: the generator emits one wrapper per walked node that is a
function or async-function definition carrying a bare `_public`
decorator, and only for those: is_public holds exactly on function
nodes whose decorator list contains the bare name `_public`, and the
snippet count equals the count of such nodes. -/
theorem C5_wrappers_exactly_for_public (tree : List PyNode) :
    (∀ (to_source : FuncDef → String) (stmt_to_source : PyNode → String)
        (lookup_path out : String),
      gen_public_wrappers_source to_source stmt_to_source tree lookup_path
        = some out →
      ∃ snippets,
        genSnippets to_source lookup_path (get_public_methods tree)
          = some snippets ∧
        snippets.length
          = ((walkList tree).filter (fun n => is_public n)).length) ∧
    ∀ n ∈ walkList tree,
      (is_public n = true ↔
        ∃ name isAsync args decs doc body,
          n = PyNode.functionDef name isAsync args decs doc body ∧
          PyDecorator.name "_public" ∈ decs) := by
  constructor
  · intro to_source stmt_to_source lookup_path out hgen
    obtain ⟨snippets, hs⟩ :=
      gen_source_snippets to_source stmt_to_source tree lookup_path out hgen
    refine ⟨snippets, hs, ?_⟩
    rw [genSnippets_length to_source lookup_path _ snippets hs]
    exact get_public_methods_length (walkList tree)
  · intro n _
    cases n with
    | functionDef name isAsync args decs doc body =>
      constructor
      · intro h
        rw [is_public] at h
        obtain ⟨d, hd, hmatch⟩ := List.any_eq_true.mp h
        cases d with
        | name id =>
          simp only [decide_eq_true_eq] at hmatch
          exact ⟨name, isAsync, args, decs, doc, body, rfl, hmatch ▸ hd⟩
        | otherExpr => simp at hmatch
      · rintro ⟨name2, isAsync2, args2, decs2, doc2, body2, heq, hmem⟩
        cases heq
        rw [is_public]
        exact List.any_eq_true.mpr ⟨.name "_public", hmem, by simp⟩
    | classDef name body =>
      constructor
      · intro h; simp [is_public] at h
      · rintro ⟨_, _, _, _, _, _, heq, _⟩; cases heq
    | assertStmt tag =>
      constructor
      · intro h; simp [is_public] at h
      · rintro ⟨_, _, _, _, _, _, heq, _⟩; cases heq
    | otherStmt =>
      constructor
      · intro h; simp [is_public] at h
      · rintro ⟨_, _, _, _, _, _, heq, _⟩; cases heq

/-- Witness for C5 at the one-method example tree: exactly one wrapper
is emitted, matching the one public method among the walked nodes. -/
theorem C5_wrappers_exactly_for_public_witness :
    ∃ snippets,
      genSnippets exampleToSource "runner" (get_public_methods exampleTree)
        = some snippets ∧
      snippets.length
        = ((walkList exampleTree).filter (fun n => is_public n)).length :=
  (C5_wrappers_exactly_for_public exampleTree).1 exampleToSource
    exampleStmtToSource "runner"
    ((gen_public_wrappers_source exampleToSource exampleStmtToSource
      exampleTree "runner").getD "") rfl

end TrioSpec
